import Mathlib

/-!
Verification of the volatility excerpt: the chunked, overlap-aware region
scanner of `plugins/windows/vadyarascan.py`, the yara-rule building of
`VadYaraScan._generator`, and the template engine of
`framework/objects/templates.py`.
-/

namespace VadYaraScan

/-!
## Region scanner

Embedding of the inner `while` loop of `VadYaraScan.vad_iterator_factory`'s
local `scan_iterator` (vadyarascan.py lines 94-106):

    while end - start > scanner.chunk_size + scanner.overlap:
        yield [(layer_name, start, scanner.chunk_size + scanner.overlap)], \
              start + scanner.chunk_size + scanner.overlap
        start += scanner.chunk_size
    yield [(layer_name, start, end - start)], end

Each yielded value is a pair: the single read request `(start, length)`
(the layer name is a loop constant and is omitted from the embedding) and
the "next minimum address" hint.  The loop is embedded with explicit fuel;
`e - s` units of fuel suffice whenever `chunk_size > 0` (proved below), so
`scan_iterator` below is the exact loop.
-/

/-- One yielded value of the iterator: the read request `(start, length)`
paired with the next-minimum-address hint. -/
abbrev IterVal := (Nat × Nat) × Nat

/-- The per-region while loop, with explicit fuel.  `C` is
`scanner.chunk_size`, `O` is `scanner.overlap`; the region is `[s, e)`. -/
def scanLoop (C O : Nat) : Nat → Nat → Nat → List IterVal
  | 0, s, e => [((s, e - s), e)]
  | fuel + 1, s, e =>
      if C + O < e - s then
        ((s, C + O), s + C + O) :: scanLoop C O fuel (s + C) e
      else
        [((s, e - s), e)]

/-- The scan iterator for one region `[s, e)`: the while loop run with
enough fuel. -/
def scan_iterator (C O s e : Nat) : List IterVal :=
  scanLoop C O (e - s) s e

/-- The emitted chunks of a region: the `(start, length)` read requests,
without the next-minimum-address hints. -/
def scanChunks (C O s e : Nat) : List (Nat × Nat) :=
  (scan_iterator C O s e).map Prod.fst

/-- The outer loop over the VAD regions: each region `(start, end)` yielded
by the client generator is scanned in order, independently. -/
def scanRegions (C O : Nat) (regions : List (Nat × Nat)) : List IterVal :=
  regions.flatMap (fun r => scan_iterator C O r.1 r.2)

/-!
## Yara rule building

Embedding of the rule-building branch of `VadYaraScan._generator`
(vadyarascan.py lines 59-67) and of the option names declared by
`VadYaraScan.get_requirements` (lines 21-53).
-/

/-- A configuration value. -/
inductive ConfigVal where
  | boolV (b : Bool)
  | strV (s : String)
  | intV (n : Nat)
deriving DecidableEq

/-- The key/value pairs present in `self.config`. -/
abbrev Config := List (String × ConfigVal)

/-- `self.config.get(key, default)` for a boolean default: the stored
boolean when the key is present with one, the default otherwise. -/
def configGetBool (cfg : Config) (key : String) (dflt : Bool) : Bool :=
  match cfg.lookup key with
  | some (.boolV b) => b
  | some _ => dflt
  | none => dflt

/-- The option names declared by `VadYaraScan.get_requirements`. -/
def requirementNames : List String :=
  ["primary", "nt_symbols", "all", "insensitive", "kernel", "wide",
   "yara_rules", "yara_file", "max_size"]

/-- A configuration that only holds declared options. -/
def ValidConfig (cfg : Config) : Prop :=
  ∀ p ∈ cfg, p.1 ∈ requirementNames

instance (cfg : Config) : Decidable (ValidConfig cfg) := by
  unfold ValidConfig
  infer_instance

/-- The rule string built by `_generator` from `config['yara_rules']`:
quote the rule unless it starts with a brace or a slash, append
`" nocase"` when `config.get('case', False)` is truthy, append
`" wide ascii"` when `config.get('wide', False)` is truthy. -/
def buildRuleString (cfg : Config) (rule : String) : String :=
  let rule :=
    if rule.front ≠ Char.ofNat 123 ∧ rule.front ≠ Char.ofNat 47 then
      "\"" ++ rule ++ "\""
    else rule
  let rule := if configGetBool cfg "case" false then rule ++ " nocase" else rule
  let rule := if configGetBool cfg "wide" false then rule ++ " wide ascii" else rule
  rule

/-- The yara source string handed to `yara.compile`:
`'rule r1 {{strings: $a = {} condition: $a}}'.format(rule)`. -/
def compiledRuleSource (cfg : Config) (rule : String) : String :=
  "rule r1 \x7bstrings: $a = " ++ buildRuleString cfg rule ++ " condition: $a\x7d"

end VadYaraScan

namespace Templates

/-!
## Template engine

Embedding of `framework/objects/templates.py`.  The base class
`interfaces.objects.Template` (the `volinfo` mapping and
`update_volinfo`), the symbol space reached through
`context.symbol_space`, and the concrete object implementations (the
`_template_size` / `_template_children` / `_template_relative_child_offset`
/ `_template_replace_child` suite) are not part of the excerpt; they are
modelled from the spec (sections 3, 4.1, 4.2, 6 and 9).  Following the
spec's design note — "model as arena-style storage with stable indices for
child templates, where replacement rewrites one slot" — templates live in
an arena and Python object identity is an arena index; a structure member
refers to its child template by index.
-/

/-- Modelled from the spec: the closed set of concrete object
implementations (design note: "model as a closed ... polymorphic
capability set"): a composite structure implementation with a nested
layout, and a scalar base-type implementation without one. -/
inductive ObjClass where
  | structClass
  | primitiveClass
deriving DecidableEq

/-- Arena index of a template: Python object identity. -/
abbrev TmplId := Nat

/-- A value stored under a name in a template's `volinfo`. -/
inductive TVal where
  | natV (n : Nat)
  | strV (s : String)
  | noneV
  | classV (c : ObjClass)
  | membersV (ms : List (String × Nat × TmplId))
deriving DecidableEq

/-- The `volinfo` mapping of a template: named construction arguments. -/
abbrev VolInfo := List (String × TVal)

/-- A template: a direct `ObjectTemplate` carrying its `volinfo`
(`object_class` entry included), or a `ReferenceTemplate` carrying only
the name of the structure it defers to. -/
inductive Tmpl where
  | direct (volinfo : VolInfo)
  | reference (structure_name : String)
deriving DecidableEq

/-- The error taxonomy of the spec (section 7), plus the two failure modes
any embedding of the dynamic Python code needs: a missing attribute and an
exhausted reference-chain bound. -/
inductive VolError where
  | validation
  | symbolNotFound (name : String)
  | childNotFound
  | notSupported
  | attributeMissing
  | fuelExhausted
deriving DecidableEq

/-- Modelled from the spec: the Type Registry (symbol space), holding the
template arena and the name table mapping structure names to template
identities. -/
structure SymbolSpace where
  arena : List Tmpl
  tables : List (String × TmplId)
deriving DecidableEq

/-- The execution context handed to every construction; it carries the
symbol space that `ReferenceTemplate.__call__` resolves against. -/
structure Context where
  symbol_space : SymbolSpace
deriving DecidableEq

/-- Modelled from the spec: `get_structure` resolves a structure name to
exactly one template or fails with a lookup error; no silent fallback. -/
def SymbolSpace.get_structure (ss : SymbolSpace) (name : String) :
    Except VolError Tmpl :=
  match ss.tables.lookup name with
  | none => .error (.symbolNotFound name)
  | some i =>
    match ss.arena[i]? with
    | none => .error (.symbolNotFound name)
    | some t => .ok t

/-- Modelled from the spec: registering a structure under a name — the
template is appended to the arena and the name bound to its identity. -/
def SymbolSpace.register (ss : SymbolSpace) (name : String) (t : Tmpl) :
    SymbolSpace :=
  ⟨ss.arena ++ [t], (name, ss.arena.length) :: ss.tables⟩

/-- The object-location argument of a construction: a layer name, an
offset, and whatever size the caller may also be supplying. -/
structure ObjectInfo where
  layer_name : String
  offset : Nat
  size : Option Nat
deriving DecidableEq

/-- Modelled from the spec: an object implementation's constructor accepts
the execution context, the object location and the template parameters
minus the implementation selector; the constructed Object records exactly
what the constructor received. -/
structure Object where
  object_class : ObjClass
  context : Context
  object_info : ObjectInfo
  arguments : VolInfo
deriving DecidableEq

/-- Python `del arguments[key]`: drop the binding of `key`. -/
def delKey (vi : VolInfo) (k : String) : VolInfo :=
  vi.filter (fun p => p.1 != k)

/-- Python dict assignment `d[key] = v` as used by `update_volinfo`: any
old binding is dropped and the new one recorded. -/
def updateKey (vi : VolInfo) (k : String) (v : TVal) : VolInfo :=
  delKey vi k ++ [(k, v)]

/-- `self.volinfo.object_class`: the object implementation recorded in a
template's `volinfo`. -/
def getObjectClass (vi : VolInfo) : Option ObjClass :=
  match vi.lookup "object_class" with
  | some (.classV c) => some c
  | _ => none

/-- The member list of a structure template: name, relative offset and
child-template identity of each member, in declaration order. -/
def getMembers (vi : VolInfo) : List (String × Nat × TmplId) :=
  match vi.lookup "members" with
  | some (.membersV ms) => ms
  | _ => []

/-- Modelled from the spec: a candidate `object_class` value as judged by
`_class_check(object_class, interfaces.objects.ObjectInterface)`: the
`None` default, a value that is no class at all, a class that does not
derive the Object interface, or a class satisfying the capability
contract. -/
inductive ClassCandidate where
  | noneC
  | notAClass
  | nonSubclass
  | subclass (c : ObjClass)
deriving DecidableEq

/-- Modelled from the spec: `_class_check` accepts exactly the classes
satisfying the Object capability contract. -/
def class_check : ClassCandidate → Option ObjClass
  | .subclass c => some c
  | _ => none

/-- `ObjectTemplate.__init__` (templates.py lines 20-25):
`Template.__init__` stores `structure_name` and the keyword arguments in
`volinfo`; `_class_check` validates `object_class` against the Object
interface, failing with a validation error; `update_volinfo` then records
the accepted class under `object_class`. -/
def ObjectTemplate.build (object_class : ClassCandidate)
    (structure_name : Option String) (arguments : VolInfo) :
    Except VolError Tmpl :=
  match class_check object_class with
  | none => .error .validation
  | some c =>
      let vi : VolInfo :=
        ("structure_name",
          match structure_name with
          | some s => TVal.strV s
          | none => TVal.noneV) :: arguments
      .ok (.direct (updateKey vi "object_class" (TVal.classV c)))

/-- Modelled from the spec: `_template_size` — the byte size implied by
the template's parameters, here its `size` parameter. -/
def templateSize : ObjClass → VolInfo → Nat
  | _, vi =>
    match vi.lookup "size" with
    | some (.natV n) => n
    | _ => 0

/-- Modelled from the spec: `_template_children` — a scalar implementation
has no children; the structure implementation returns the member templates
in declaration order. -/
def templateChildren (c : ObjClass) (vi : VolInfo) : List TmplId :=
  match c with
  | .primitiveClass => []
  | .structClass => (getMembers vi).map (fun m => m.2.2)

/-- Modelled from the spec: `_template_relative_child_offset` — a scalar
implementation defines no nested layout (`NotImplementedError`); the
structure implementation returns the recorded offset of the child, or a
child-not-found error when the child is not among the members. -/
def templateRelativeChildOffset (c : ObjClass) (vi : VolInfo)
    (child : TmplId) : Except VolError Nat :=
  match c with
  | .primitiveClass => .error .notSupported
  | .structClass =>
      match (getMembers vi).find? (fun m => m.2.2 == child) with
      | some m => .ok m.2.1
      | none => .error .childNotFound

/-- Substitution of one child identity for another in every member slot of
a `volinfo`. -/
def replaceMembersVI (vi : VolInfo) (o n : TmplId) : VolInfo :=
  vi.map (fun p =>
    match p with
    | (k, TVal.membersV ms) =>
        (k, TVal.membersV (ms.map (fun m =>
          if m.2.2 == o then (m.1, m.2.1, n) else m)))
    | q => q)

/-- Modelled from the spec: `_template_replace_child` — substitute the new
child for the old one in the template's own member list; a scalar
implementation has no children to replace. -/
def templateReplaceChild (c : ObjClass) (vi : VolInfo) (o n : TmplId) :
    Except VolError VolInfo :=
  match c with
  | .primitiveClass => .error .notSupported
  | .structClass => .ok (replaceMembersVI vi o n)

/-- `ObjectTemplate.size` (templates.py lines 27-30): delegate to the
object implementation recorded in `volinfo`. -/
def Tmpl.size : Tmpl → Nat
  | .direct vi =>
      match getObjectClass vi with
      | some c => templateSize c vi
      | none => 0
  | .reference _ => 0

/-- `ObjectTemplate.children` (templates.py lines 32-38): delegate to the
object implementation recorded in `volinfo`. -/
def Tmpl.children : Tmpl → List TmplId
  | .direct vi =>
      match getObjectClass vi with
      | some c => templateChildren c vi
      | none => []
  | .reference _ => []

/-- `ObjectTemplate.relative_child_offset` (templates.py lines 40-45):
delegate to the object implementation recorded in `volinfo`. -/
def Tmpl.relative_child_offset : Tmpl → TmplId → Except VolError Nat
  | .direct vi, child =>
      match getObjectClass vi with
      | some c => templateRelativeChildOffset c vi child
      | none => .error .attributeMissing
  | .reference _, _ => .error .attributeMissing

/-- `ObjectTemplate.replace_child` (templates.py lines 46-51): delegate to
the object implementation recorded in `volinfo`. -/
def Tmpl.replace_child : Tmpl → TmplId → TmplId → Except VolError Tmpl
  | .direct vi, o, n =>
      match getObjectClass vi with
      | some c => (templateReplaceChild c vi o n).map (fun vi2 => .direct vi2)
      | none => .error .attributeMissing
  | .reference _, _, _ => .error .attributeMissing

/-- Modelled from the spec: in-place mutation of a shared template — the
`replace_child` of templates.py rewrites the template's own arena slot, so
every table entry and member referencing this identity observes the
change ("shared-ownership semantics, not copy-on-write"). -/
def SymbolSpace.replace_child (ss : SymbolSpace) (tid o n : TmplId) :
    SymbolSpace :=
  match ss.arena[tid]? with
  | none => ss
  | some t =>
      match t.replace_child o n with
      | .ok t2 => ⟨ss.arena.set tid t2, ss.tables⟩
      | .error _ => ss

/-- The children of the template stored at an arena slot. -/
def childrenAt (ss : SymbolSpace) (tid : TmplId) : List TmplId :=
  match ss.arena[tid]? with
  | some t => t.children
  | none => []

/-- `ObjectTemplate.__call__` (templates.py lines 53-66) with the
template's own state threaded through: a fresh `arguments` dictionary is
filled from `volinfo` (`arguments = {}` then
`arguments.update(self.volinfo)`), the `object_class` entry is deleted
from that copy only, and the object implementation is called with the
context, the object location and those arguments.  The second component is
the template's `volinfo` after the call. -/
def ObjectTemplate.callS (vi : VolInfo) (ctx : Context) (oi : ObjectInfo) :
    Except VolError Object × VolInfo :=
  let arguments : VolInfo := []
  let arguments := arguments ++ vi
  let arguments := delKey arguments "object_class"
  match getObjectClass vi with
  | none => (.error .attributeMissing, vi)
  | some c => (.ok ⟨c, ctx, oi, arguments⟩, vi)

/-- The result of one `ObjectTemplate.__call__`. -/
def ObjectTemplate.call (vi : VolInfo) (ctx : Context) (oi : ObjectInfo) :
    Except VolError Object :=
  (ObjectTemplate.callS vi ctx oi).1

/-- The template's `volinfo` after `n` repeated constructions. -/
def iterateCalls (vi : VolInfo) (ctx : Context) (oi : ObjectInfo) :
    Nat → VolInfo
  | 0 => vi
  | k + 1 => iterateCalls (ObjectTemplate.callS vi ctx oi).2 ctx oi k

/-- Template construction.  A direct template constructs through
`ObjectTemplate.__call__`.  A deferred reference
(`ReferenceTemplate.__call__`, templates.py lines 69-77) resolves its
`structure_name` through the context's symbol space on this very call —
nothing is memoized — and delegates construction to the resolved
template.  The fuel bounds the length of reference-to-reference chains,
which the Python source would follow without bound. -/
def constructT (ctx : Context) : Nat → Tmpl → ObjectInfo → Except VolError Object
  | _, .direct vi, oi => ObjectTemplate.call vi ctx oi
  | 0, .reference _, _ => .error .fuelExhausted
  | fuel + 1, .reference n, oi =>
      match ctx.symbol_space.get_structure n with
      | .error e => .error e
      | .ok t => constructT ctx fuel t oi

end Templates

namespace VadYaraScan

/-! Auxiliary lemmas: fuel irrelevance and the one-step unfolding. -/

theorem scanLoop_fuel_congr (C O : Nat) (hC : 0 < C) :
    ∀ f₁ f₂ s e, e - s ≤ f₁ → e - s ≤ f₂ →
      scanLoop C O f₁ s e = scanLoop C O f₂ s e := by
  intro f₁
  induction f₁ with
  | zero =>
    intro f₂ s e h₁ h₂
    have hz : e - s = 0 := Nat.le_zero.mp h₁
    have hguard : ¬ (C + O < e - s) := by omega
    cases f₂ with
    | zero => rfl
    | succ f₂ => simp [scanLoop, hguard]
  | succ f₁ ih =>
    intro f₂ s e h₁ h₂
    cases f₂ with
    | zero =>
      have hz : e - s = 0 := Nat.le_zero.mp h₂
      have hguard : ¬ (C + O < e - s) := by omega
      simp [scanLoop, hguard]
    | succ f₂ =>
      by_cases hguard : C + O < e - s
      · have hrec₁ : e - (s + C) ≤ f₁ := by omega
        have hrec₂ : e - (s + C) ≤ f₂ := by omega
        simp [scanLoop, hguard, ih f₂ (s + C) e hrec₁ hrec₂]
      · simp [scanLoop, hguard]

/-- One-step unfolding of the iterator: it behaves as the source's while
loop. -/
theorem scan_iterator_eq (C O s e : Nat) (hC : 0 < C) :
    scan_iterator C O s e =
      if C + O < e - s then
        ((s, C + O), s + C + O) :: scan_iterator C O (s + C) e
      else
        [((s, e - s), e)] := by
  unfold scan_iterator
  by_cases hguard : C + O < e - s
  · rw [if_pos hguard]
    obtain ⟨f, hf⟩ : ∃ f, e - s = f + 1 := ⟨e - s - 1, by omega⟩
    rw [hf]
    simp only [scanLoop]
    rw [if_pos hguard]
    rw [scanLoop_fuel_congr C O hC f (e - (s + C)) (s + C) e (by omega) (Nat.le_refl _)]
  · rw [if_neg hguard]
    cases hz : e - s with
    | zero => simp [scanLoop, hz]
    | succ f =>
      simp only [scanLoop]
      rw [if_neg hguard, hz]

theorem scan_iterator_ne_nil (C O s e : Nat) : scan_iterator C O s e ≠ [] := by
  unfold scan_iterator
  cases hz : e - s with
  | zero => simp [scanLoop]
  | succ f =>
    simp only [scanLoop]
    by_cases hguard : C + O < e - s
    · simp [hguard]
    · simp [hguard]

/-- The first chunk of a region always starts at `s`; it is a full chunk
when the loop guard holds and the remainder otherwise. -/
theorem scanChunks_head (C O s e : Nat) :
    (scanChunks C O s e).head? =
      some (s, if C + O < e - s then C + O else e - s) := by
  unfold scanChunks scan_iterator
  cases hz : e - s with
  | zero =>
    simp [scanLoop, hz]
  | succ f =>
    simp only [scanLoop]
    by_cases hguard : C + O < f + 1
    · rw [if_pos (show C + O < e - s by omega), if_pos hguard]
      simp
    · rw [if_neg (show ¬ C + O < e - s by omega), if_neg hguard]
      simp [hz]

/-- Chunk count: `(L - O - 1) / C + 1` full-and-remainder chunks when the
loop runs at least once, otherwise exactly one chunk. -/
theorem scanChunks_length (C O : Nat) (hC : 0 < C) :
    ∀ L s e, e - s ≤ L →
      (scanChunks C O s e).length =
        if C + O < e - s then (e - s - O - 1) / C + 1 else 1 := by
  intro L
  induction L with
  | zero =>
    intro s e h
    have hguard : ¬ (C + O < e - s) := by omega
    unfold scanChunks
    rw [scan_iterator_eq C O s e hC, if_neg hguard]
    simp [hguard]
  | succ L ih =>
    intro s e h
    by_cases hguard : C + O < e - s
    · unfold scanChunks
      rw [scan_iterator_eq C O s e hC, if_pos hguard]
      simp only [List.map_cons, List.length_cons]
      have hrec := ih (s + C) e (by omega)
      unfold scanChunks at hrec
      rw [hrec]
      by_cases hsub : C + O < e - (s + C)
      · rw [if_pos hsub, if_pos hguard]
        have h1 : e - s - O - 1 = (e - (s + C) - O - 1) + C := by omega
        rw [h1, Nat.add_div_right _ hC]
      · rw [if_neg hsub, if_pos hguard]
        have h2 : (e - s - O - 1) / C = 1 := by
          apply Nat.div_eq_of_lt_le
          · omega
          · simp only [Nat.succ_mul]
            omega
        omega
    · unfold scanChunks
      rw [scan_iterator_eq C O s e hC, if_neg hguard]
      simp [hguard]

/-- Consecutive chunks: the next start is exactly `C` past the previous
start (so each full chunk has length `C + O`), the previous chunk's end is
exactly `O` bytes into the next chunk, and the next chunk is longer than
`O`, so consecutive chunk ranges intersect in exactly `O` bytes. -/
theorem scanChunks_chain (C O : Nat) (hC : 0 < C) :
    ∀ L s e, e - s ≤ L →
      List.Chain'
        (fun p q : Nat × Nat =>
          q.1 = p.1 + C ∧ p.1 + p.2 = q.1 + O ∧ O < q.2)
        (scanChunks C O s e) := by
  intro L
  induction L with
  | zero =>
    intro s e h
    have hguard : ¬ (C + O < e - s) := by omega
    unfold scanChunks
    rw [scan_iterator_eq C O s e hC, if_neg hguard]
    simp
  | succ L ih =>
    intro s e h
    by_cases hguard : C + O < e - s
    · unfold scanChunks
      rw [scan_iterator_eq C O s e hC, if_pos hguard]
      simp only [List.map_cons]
      rw [List.chain'_cons']
      constructor
      · intro b hb
        have hh := scanChunks_head C O (s + C) e
        unfold scanChunks at hh
        rw [hh] at hb
        simp only [Option.mem_def, Option.some.injEq] at hb
        subst hb
        by_cases hsub : C + O < e - (s + C)
        · rw [if_pos hsub]
          refine ⟨rfl, ?_, ?_⟩
          · show s + (C + O) = s + C + O
            omega
          · show O < C + O
            omega
        · rw [if_neg hsub]
          refine ⟨rfl, ?_, ?_⟩
          · show s + (C + O) = s + C + O
            omega
          · show O < e - (s + C)
            omega
      · have := ih (s + C) e (by omega)
        unfold scanChunks at this
        exact this
    · unfold scanChunks
      rw [scan_iterator_eq C O s e hC, if_neg hguard]
      simp

/-- Coverage: every address of `[s, e)` lies in some emitted chunk. -/
theorem scanChunks_cover (C O : Nat) (hC : 0 < C) :
    ∀ L s e, e - s ≤ L → ∀ x, s ≤ x → x < e →
      ∃ p ∈ scanChunks C O s e, p.1 ≤ x ∧ x < p.1 + p.2 := by
  intro L
  induction L with
  | zero =>
    intro s e h x hsx hxe
    omega
  | succ L ih =>
    intro s e h x hsx hxe
    by_cases hguard : C + O < e - s
    · unfold scanChunks
      rw [scan_iterator_eq C O s e hC, if_pos hguard]
      simp only [List.map_cons]
      by_cases hx : x < s + (C + O)
      · exact ⟨(s, C + O), List.mem_cons_self _ _, hsx, hx⟩
      · obtain ⟨p, hp, hpx⟩ :=
          ih (s + C) e (by omega) x (by omega) hxe
        unfold scanChunks at hp
        exact ⟨p, List.mem_cons_of_mem _ hp, hpx⟩
    · unfold scanChunks
      rw [scan_iterator_eq C O s e hC, if_neg hguard]
      exact ⟨(s, e - s), by simp, hsx, by omega⟩

/-- Containment: every emitted chunk lies inside the region `[s, e)`. -/
theorem scanChunks_inside (C O : Nat) (hC : 0 < C) :
    ∀ L s e, e - s ≤ L → s ≤ e →
      ∀ p ∈ scanChunks C O s e, s ≤ p.1 ∧ p.1 + p.2 ≤ e := by
  intro L
  induction L with
  | zero =>
    intro s e h hse p hp
    have hguard : ¬ (C + O < e - s) := by omega
    unfold scanChunks at hp
    rw [scan_iterator_eq C O s e hC, if_neg hguard] at hp
    simp only [List.map_cons, List.map_nil, List.mem_singleton] at hp
    subst hp
    constructor
    · exact Nat.le_refl _
    · show s + (e - s) ≤ e
      omega
  | succ L ih =>
    intro s e h hse p hp
    by_cases hguard : C + O < e - s
    · unfold scanChunks at hp
      rw [scan_iterator_eq C O s e hC, if_pos hguard] at hp
      simp only [List.map_cons, List.mem_cons] at hp
      rcases hp with hp | hp
      · subst hp
        constructor
        · exact Nat.le_refl _
        · show s + (C + O) ≤ e
          omega
      · have := ih (s + C) e (by omega) (by omega) p (by
          unfold scanChunks
          exact hp)
        omega
    · unfold scanChunks at hp
      rw [scan_iterator_eq C O s e hC, if_neg hguard] at hp
      simp only [List.map_cons, List.map_nil, List.mem_singleton] at hp
      subst hp
      constructor
      · exact Nat.le_refl _
      · show s + (e - s) ≤ e
        omega

/-- All chunks except the last are full chunks of length `C + O`. -/
theorem scanChunks_full (C O : Nat) (hC : 0 < C) :
    ∀ L s e, e - s ≤ L →
      ∀ p ∈ (scanChunks C O s e).dropLast, p.2 = C + O := by
  intro L
  induction L with
  | zero =>
    intro s e h p hp
    have hguard : ¬ (C + O < e - s) := by omega
    unfold scanChunks at hp
    rw [scan_iterator_eq C O s e hC, if_neg hguard] at hp
    simp at hp
  | succ L ih =>
    intro s e h p hp
    by_cases hguard : C + O < e - s
    · unfold scanChunks at hp
      rw [scan_iterator_eq C O s e hC, if_pos hguard] at hp
      simp only [List.map_cons] at hp
      have hne : (scan_iterator C O (s + C) e).map Prod.fst ≠ [] := by
        intro hcontra
        exact scan_iterator_ne_nil C O (s + C) e (List.map_eq_nil_iff.mp hcontra)
      rw [List.dropLast_cons_of_ne_nil hne] at hp
      rcases List.mem_cons.mp hp with hp | hp
      · subst hp; rfl
      · have := ih (s + C) e (by omega) p (by
          unfold scanChunks
          exact hp)
        exact this
    · unfold scanChunks at hp
      rw [scan_iterator_eq C O s e hC, if_neg hguard] at hp
      simp at hp

/-- C1: Region Scanner boundary law.  For every region `[s, e)` and
scanner parameters `0 ≤ O < C`: the number of emitted chunks is
`ceil((L - O) / C)` when `L > C + O` and exactly 1 otherwise; every chunk
except the last is a full chunk of length `C + O`; consecutive chunks
advance the start by exactly `C` and overlap in exactly `O` bytes; and the
chunks cover `[s, e)` with no gap and stay inside the region. -/
theorem scan_iterator_boundary_law (C O s e : Nat) (hO : O < C) (hse : s ≤ e) :
    ((scanChunks C O s e).length =
        if C + O < e - s then (e - s - O + (C - 1)) / C else 1) ∧
    (∀ p ∈ (scanChunks C O s e).dropLast, p.2 = C + O) ∧
    List.Chain'
      (fun p q : Nat × Nat => q.1 = p.1 + C ∧ p.1 + p.2 = q.1 + O ∧ O < q.2)
      (scanChunks C O s e) ∧
    (∀ x, s ≤ x → x < e → ∃ p ∈ scanChunks C O s e, p.1 ≤ x ∧ x < p.1 + p.2) ∧
    (∀ p ∈ scanChunks C O s e, s ≤ p.1 ∧ p.1 + p.2 ≤ e) := by
  have hC : 0 < C := by omega
  refine ⟨?_,
    scanChunks_full C O hC (e - s) s e (Nat.le_refl _),
    scanChunks_chain C O hC (e - s) s e (Nat.le_refl _),
    fun x hx1 hx2 => scanChunks_cover C O hC (e - s) s e (Nat.le_refl _) x hx1 hx2,
    scanChunks_inside C O hC (e - s) s e (Nat.le_refl _) hse⟩
  rw [scanChunks_length C O hC (e - s) s e (Nat.le_refl _)]
  by_cases hguard : C + O < e - s
  · rw [if_pos hguard, if_pos hguard]
    have h1 : e - s - O + (C - 1) = (e - s - O - 1) + C := by omega
    rw [h1, Nat.add_div_right _ hC]
  · rw [if_neg hguard, if_neg hguard]

theorem scan_iterator_boundary_law_witness :
    ((50 < 400 ∧ (0 : Nat) ≤ 1000) ∧
      (scanChunks 400 50 0 1000).length = 3) ∧
    (scanChunks 400 50 0 1000).length =
      if 400 + 50 < 1000 - 0 then (1000 - 0 - 50 + (400 - 1)) / 400 else 1 := by
  have h := (scan_iterator_boundary_law 400 50 0 1000 (by decide) (by decide)).1
  refine ⟨⟨⟨by decide, by decide⟩, ?_⟩, h⟩
  rw [h]
  decide

/-- C6: the three concrete scanner scenarios of the spec.  Region
`[0, 1000)` with `C = 400`, `O = 50` yields exactly the chunk ranges
`[0,450)`, `[400,850)`, `[800,1000)` in that order; region `[0, 300)` with
the same parameters yields exactly `[0,300)`; and the two regions
`[0,100)` and `[5000,5010)` with `C = 1000`, `O = 10` each yield exactly
one chunk, emitted in generator order, each region scanned
independently. -/
theorem scan_iterator_concrete_scenarios :
    (scanChunks 400 50 0 1000).map (fun p => (p.1, p.1 + p.2)) =
        [(0, 450), (400, 850), (800, 1000)] ∧
    (scanChunks 400 50 0 300).map (fun p => (p.1, p.1 + p.2)) = [(0, 300)] ∧
    scanRegions 1000 10 [(0, 100), (5000, 5010)] =
        scan_iterator 1000 10 0 100 ++ scan_iterator 1000 10 5000 5010 ∧
    scan_iterator 1000 10 0 100 = [((0, 100), 100)] ∧
    scan_iterator 1000 10 5000 5010 = [((5000, 10), 5010)] :=
  ⟨by decide, by decide, by decide, by decide, by decide⟩

/-- C8: the per-region while loop terminates whenever `O < C` (so
`C ≥ 1`): `e - s` units of fuel already suffice — more fuel never changes
the output — and each region yields finitely many chunks, at most
`e - s + 1` of them. -/
theorem scan_iterator_terminates (C O s e : Nat) (hO : O < C) :
    (∀ fuel, e - s ≤ fuel → scanLoop C O fuel s e = scan_iterator C O s e) ∧
    (scan_iterator C O s e).length ≤ (e - s) + 1 := by
  have hC : 0 < C := by omega
  constructor
  · intro fuel hf
    exact scanLoop_fuel_congr C O hC fuel (e - s) s e hf (Nat.le_refl _)
  · have hlen := scanChunks_length C O hC (e - s) s e (Nat.le_refl _)
    have hmap : (scanChunks C O s e).length = (scan_iterator C O s e).length := by
      simp [scanChunks]
    rw [← hmap, hlen]
    by_cases hguard : C + O < e - s
    · rw [if_pos hguard]
      have := Nat.div_le_self (e - s - O - 1) C
      omega
    · rw [if_neg hguard]
      omega

theorem scan_iterator_terminates_witness :
    (50 < 400 ∧ (scan_iterator 400 50 0 1000).length ≤ 1000 - 0 + 1) ∧
    scanLoop 400 50 1000000 0 1000 = scan_iterator 400 50 0 1000 := by
  have h := scan_iterator_terminates 400 50 0 1000 (by decide)
  exact ⟨⟨by decide, h.2⟩, h.1 1000000 (by decide)⟩

theorem lookup_eq_none_of_valid (cfg : Config) (k : String)
    (hv : ValidConfig cfg) (hk : k ∉ requirementNames) :
    cfg.lookup k = none := by
  induction cfg with
  | nil => rfl
  | cons p rest ih =>
    have hne : (k == p.1) = false := by
      rw [beq_eq_false_iff_ne]
      intro h
      exact hk (h ▸ hv p (List.mem_cons_self _ _))
    obtain ⟨k₁, v₁⟩ := p
    simp only [List.lookup, hne]
    exact ih (fun q hq => hv q (List.mem_cons_of_mem _ hq))

/-- C10: the `insensitive` option has no effect.  The rule builder reads
the undeclared key `case` — which a configuration holding only declared
options can never contain — so `" nocase"` is never appended, and two
valid configurations that agree everywhere except on `insensitive`
produce the identical compiled yara rule source. -/
theorem insensitive_option_no_effect (cfg₁ cfg₂ : Config) (rule : String)
    (h₁ : ValidConfig cfg₁) (h₂ : ValidConfig cfg₂)
    (hagree : ∀ k, k ≠ "insensitive" → cfg₁.lookup k = cfg₂.lookup k) :
    compiledRuleSource cfg₁ rule = compiledRuleSource cfg₂ rule ∧
    "case" ∉ requirementNames ∧
    cfg₁.lookup "case" = none ∧
    configGetBool cfg₁ "case" false = false := by
  have hcase : "case" ∉ requirementNames := by decide
  have hc₁ : cfg₁.lookup "case" = none := lookup_eq_none_of_valid cfg₁ "case" h₁ hcase
  have hc₂ : cfg₂.lookup "case" = none := lookup_eq_none_of_valid cfg₂ "case" h₂ hcase
  have hwide : cfg₁.lookup "wide" = cfg₂.lookup "wide" :=
    hagree "wide" (by decide)
  refine ⟨?_, hcase, hc₁, ?_⟩
  · unfold compiledRuleSource buildRuleString configGetBool
    rw [hc₁, hc₂, hwide]
  · unfold configGetBool
    rw [hc₁]

theorem insensitive_option_no_effect_witness :
    compiledRuleSource [("insensitive", ConfigVal.boolV true)] "malware" =
        compiledRuleSource [("insensitive", ConfigVal.boolV false)] "malware" ∧
    "case" ∉ requirementNames ∧
    ([("insensitive", ConfigVal.boolV true)] : Config).lookup "case" = none ∧
    configGetBool [("insensitive", ConfigVal.boolV true)] "case" false = false := by
  apply insensitive_option_no_effect
  · decide
  · decide
  · intro k hk
    have hne : (k == "insensitive") = false := beq_eq_false_iff_ne.mpr hk
    simp only [List.lookup, hne]

end VadYaraScan

namespace Templates

/-! Dictionary lemmas. -/

theorem lookup_delKey_self (vi : VolInfo) (k : String) :
    (delKey vi k).lookup k = none := by
  induction vi with
  | nil => rfl
  | cons p rest ih =>
    obtain ⟨k₁, v₁⟩ := p
    by_cases h : k₁ = k
    · simp only [delKey, List.filter]
      subst h
      simp only [bne_self_eq_false]
      exact ih
    · simp only [delKey, List.filter]
      have hb : (k₁ != k) = true := bne_iff_ne.mpr h
      rw [hb]
      simp only [List.lookup]
      have hkk : (k == k₁) = false := beq_eq_false_iff_ne.mpr (fun hh => h hh.symm)
      rw [hkk]
      exact ih

theorem lookup_delKey_ne (vi : VolInfo) (k k' : String) (h : k' ≠ k) :
    (delKey vi k).lookup k' = vi.lookup k' := by
  induction vi with
  | nil => rfl
  | cons p rest ih =>
    obtain ⟨k₁, v₁⟩ := p
    by_cases hk : k₁ = k
    · subst hk
      simp only [delKey, List.filter, bne_self_eq_false]
      have : (k' == k₁) = false := beq_eq_false_iff_ne.mpr h
      simp only [List.lookup, this]
      exact ih
    · simp only [delKey, List.filter]
      have hb : (k₁ != k) = true := bne_iff_ne.mpr hk
      rw [hb]
      simp only [List.lookup]
      cases hkk : (k' == k₁) with
      | true => rfl
      | false => exact ih

theorem lookup_append_of_none (l₁ l₂ : VolInfo) (k : String)
    (h : l₁.lookup k = none) : (l₁ ++ l₂).lookup k = l₂.lookup k := by
  induction l₁ with
  | nil => rfl
  | cons p rest ih =>
    obtain ⟨k₁, v₁⟩ := p
    simp only [List.lookup, List.cons_append]
    cases hkk : (k == k₁) with
    | true =>
      simp only [List.lookup, hkk] at h
      exact absurd h (by simp)
    | false =>
      simp only [List.lookup, hkk] at h
      exact ih h

theorem lookup_updateKey_self (vi : VolInfo) (k : String) (v : TVal) :
    (updateKey vi k v).lookup k = some v := by
  unfold updateKey
  rw [lookup_append_of_none _ _ _ (lookup_delKey_self vi k)]
  simp [List.lookup]

theorem getObjectClass_updateKey (vi : VolInfo) (c : ObjClass) :
    getObjectClass (updateKey vi "object_class" (TVal.classV c)) = some c := by
  unfold getObjectClass
  rw [lookup_updateKey_self]

/-- Registering a structure makes `get_structure` resolve it to exactly
the registered template. -/
theorem get_structure_register_self (ss : SymbolSpace) (n : String)
    (t : Tmpl) : (ss.register n t).get_structure n = .ok t := by
  unfold SymbolSpace.register SymbolSpace.get_structure
  simp only [List.lookup, beq_self_eq_true]
  rw [List.getElem?_concat_length]

/-- C2: a Deferred-Reference Template resolves `structure_name` against
the symbol space at every call.  When the name is absent the call fails
with a lookup error; registering a direct template under the name makes
the very next call — the same reference template value, any fuel —
construct successfully through the newly registered template, so registry
updates are observed and nothing is memoized. -/
theorem reference_template_resolves_each_call
    (ss : SymbolSpace) (n : String) (vi : VolInfo) (c : ObjClass)
    (oi : ObjectInfo) (fuel : Nat)
    (habs : ss.tables.lookup n = none)
    (hcls : getObjectClass vi = some c) :
    constructT ⟨ss⟩ (fuel + 1) (.reference n) oi
        = .error (.symbolNotFound n) ∧
    (ss.register n (.direct vi)).get_structure n = .ok (.direct vi) ∧
    constructT ⟨ss.register n (.direct vi)⟩ (fuel + 1) (.reference n) oi
        = .ok ⟨c, ⟨ss.register n (.direct vi)⟩, oi, delKey vi "object_class"⟩ := by
  have hreg := get_structure_register_self ss n (.direct vi)
  refine ⟨?_, hreg, ?_⟩
  · have hget : ss.get_structure n = .error (.symbolNotFound n) := by
      unfold SymbolSpace.get_structure
      rw [habs]
    simp only [constructT, hget]
  · simp only [constructT, hreg]
    unfold ObjectTemplate.call ObjectTemplate.callS
    simp [hcls]

theorem reference_template_resolves_each_call_witness :
    constructT ⟨⟨[], []⟩⟩ 1 (.reference "T") ⟨"layer", 0, none⟩
        = .error (.symbolNotFound "T") ∧
    constructT ⟨SymbolSpace.register ⟨[], []⟩ "T"
          (.direct [("object_class", TVal.classV .structClass)])⟩ 1
        (.reference "T") ⟨"layer", 0, none⟩
      = .ok ⟨.structClass,
          ⟨SymbolSpace.register ⟨[], []⟩ "T"
            (.direct [("object_class", TVal.classV .structClass)])⟩,
          ⟨"layer", 0, none⟩, []⟩ := by
  have h := reference_template_resolves_each_call ⟨[], []⟩ "T"
      [("object_class", TVal.classV .structClass)] .structClass
      ⟨"layer", 0, none⟩ 0 (by decide) (by decide)
  exact ⟨h.1, h.2.2⟩

/-- C3: building a Direct Template with a missing or contract-violating
object implementation fails with a validation error at build time; every
successfully built Direct Template constructs without ever raising an
error — in particular, no validation error is ever surfaced at construct
time. -/
theorem direct_template_validated_at_build_time :
    (∀ cand sn args, class_check cand = none →
        ObjectTemplate.build cand sn args = .error .validation) ∧
    (∀ cand sn args t, ObjectTemplate.build cand sn args = .ok t →
        ∀ ctx oi fuel, ∃ obj, constructT ctx fuel t oi = .ok obj) := by
  constructor
  · intro cand sn args hcc
    unfold ObjectTemplate.build
    rw [hcc]
  · intro cand sn args t hbuild ctx oi fuel
    unfold ObjectTemplate.build at hbuild
    cases hcc : class_check cand with
    | none => rw [hcc] at hbuild; exact absurd hbuild (by simp)
    | some c =>
      rw [hcc] at hbuild
      simp only [Except.ok.injEq] at hbuild
      subst hbuild
      simp only [constructT]
      unfold ObjectTemplate.call ObjectTemplate.callS
      simp [getObjectClass_updateKey]

theorem direct_template_validated_at_build_time_witness :
    ObjectTemplate.build .noneC none [] = .error .validation ∧
    ObjectTemplate.build .notAClass none [] = .error .validation ∧
    ObjectTemplate.build .nonSubclass none [] = .error .validation ∧
    (∃ obj, constructT ⟨⟨[], []⟩⟩ 0
        (.direct [("structure_name", TVal.noneV),
                  ("object_class", TVal.classV .structClass)])
        ⟨"layer", 0, none⟩ = .ok obj) := by
  refine ⟨direct_template_validated_at_build_time.1 .noneC none [] rfl,
    direct_template_validated_at_build_time.1 .notAClass none [] rfl,
    direct_template_validated_at_build_time.1 .nonSubclass none [] rfl,
    direct_template_validated_at_build_time.2 (.subclass .structClass) none []
      _ rfl ⟨⟨[], []⟩⟩ ⟨"layer", 0, none⟩ 0⟩

/-- C4: constructing through a Direct Template hands the object
implementation the execution context, the object location, and the
template's own parameters minus the `object_class` selector, verbatim; the
forwarded arguments — in particular any `size` parameter — come from the
template alone, no matter what size the caller supplies in the object
location, and the template's size is computed by its own implementation
from its own parameters. -/
theorem direct_construct_forwards_parameters
    (vi : VolInfo) (c : ObjClass) (ctx : Context) (oi : ObjectInfo)
    (hcls : getObjectClass vi = some c) :
    ObjectTemplate.call vi ctx oi =
        .ok ⟨c, ctx, oi, delKey vi "object_class"⟩ ∧
    (delKey vi "object_class").lookup "size" = vi.lookup "size" ∧
    (∀ oi₁ oi₂ : ObjectInfo,
        (ObjectTemplate.call vi ctx oi₁).map Object.arguments =
        (ObjectTemplate.call vi ctx oi₂).map Object.arguments) ∧
    Tmpl.size (.direct vi) = templateSize c vi := by
  have hcall : ∀ oi' : ObjectInfo, ObjectTemplate.call vi ctx oi' =
      .ok ⟨c, ctx, oi', delKey vi "object_class"⟩ := by
    intro oi'
    unfold ObjectTemplate.call ObjectTemplate.callS
    simp [hcls]
  refine ⟨hcall oi, lookup_delKey_ne vi "object_class" "size" (by decide),
    ?_, ?_⟩
  · intro oi₁ oi₂
    rw [hcall oi₁, hcall oi₂]
    rfl
  · simp only [Tmpl.size, hcls]

theorem direct_construct_forwards_parameters_witness :
    ObjectTemplate.call
        [("structure_name", TVal.strV "S"), ("size", TVal.natV 8),
         ("object_class", TVal.classV .primitiveClass)]
        ⟨⟨[], []⟩⟩ ⟨"layer", 64, some 999⟩ =
      .ok ⟨.primitiveClass, ⟨⟨[], []⟩⟩, ⟨"layer", 64, some 999⟩,
        [("structure_name", TVal.strV "S"), ("size", TVal.natV 8)]⟩ ∧
    Tmpl.size (.direct
        [("structure_name", TVal.strV "S"), ("size", TVal.natV 8),
         ("object_class", TVal.classV .primitiveClass)]) =
      templateSize .primitiveClass
        [("structure_name", TVal.strV "S"), ("size", TVal.natV 8),
         ("object_class", TVal.classV .primitiveClass)] := by
  have h := direct_construct_forwards_parameters
      [("structure_name", TVal.strV "S"), ("size", TVal.natV 8),
       ("object_class", TVal.classV .primitiveClass)]
      .primitiveClass ⟨⟨[], []⟩⟩ ⟨"layer", 64, some 999⟩ (by decide)
  exact ⟨h.1, h.2.2.2⟩

/-- C9: construction never mutates the template.  `__call__` fills a fresh
dictionary from `volinfo` and deletes `object_class` from that copy only:
the template's stored parameters after any number of constructions —
`object_class` included — are exactly the original ones. -/
theorem construct_never_mutates_template
    (vi : VolInfo) (ctx : Context) (oi : ObjectInfo) :
    (∀ k, iterateCalls vi ctx oi k = vi) ∧
    (ObjectTemplate.callS vi ctx oi).2 = vi ∧
    (ObjectTemplate.callS vi ctx oi).2.lookup "object_class" =
        vi.lookup "object_class" := by
  have hsnd : (ObjectTemplate.callS vi ctx oi).2 = vi := by
    unfold ObjectTemplate.callS
    cases h : getObjectClass vi <;> rfl
  refine ⟨?_, hsnd, by rw [hsnd]⟩
  intro k
  induction k with
  | zero => rfl
  | succ k ih =>
    simp only [iterateCalls, hsnd]
    exact ih

/-- C7: `relative_child_offset` on a scalar template fails with a
not-supported error; on a structure template it fails with a
child-not-found error exactly when the child is not among the template's
children, succeeds exactly when it is — returning the offset recorded for
that child in the member layout — and never fails with any other error, so
both failure modes are distinct from lookup errors. -/
theorem relative_child_offset_errors (vi : VolInfo) (child : TmplId) :
    (getObjectClass vi = some .primitiveClass →
        Tmpl.relative_child_offset (.direct vi) child = .error .notSupported) ∧
    (getObjectClass vi = some .structClass →
        (child ∉ Tmpl.children (.direct vi) →
            Tmpl.relative_child_offset (.direct vi) child
              = .error .childNotFound) ∧
        ((∃ off, Tmpl.relative_child_offset (.direct vi) child = .ok off) ↔
            child ∈ Tmpl.children (.direct vi)) ∧
        (∀ off, Tmpl.relative_child_offset (.direct vi) child = .ok off →
            ∃ m ∈ getMembers vi, m.2.2 = child ∧ m.2.1 = off) ∧
        (∀ e, Tmpl.relative_child_offset (.direct vi) child = .error e →
            e = .childNotFound)) := by
  constructor
  · intro hprim
    simp only [Tmpl.relative_child_offset, hprim, templateRelativeChildOffset]
  · intro hstruct
    have hch : Tmpl.children (.direct vi) = (getMembers vi).map (fun m => m.2.2) := by
      simp only [Tmpl.children, hstruct, templateChildren]
    have hrco : Tmpl.relative_child_offset (.direct vi) child =
        match (getMembers vi).find? (fun m => m.2.2 == child) with
        | some m => .ok m.2.1
        | none => .error .childNotFound := by
      simp only [Tmpl.relative_child_offset, hstruct, templateRelativeChildOffset]
    cases hf : (getMembers vi).find? (fun m => m.2.2 == child) with
    | none =>
      rw [hf] at hrco
      have hnotmem : child ∉ Tmpl.children (.direct vi) := by
        rw [hch]
        intro hmem
        obtain ⟨m, hm, hmc⟩ := List.mem_map.mp hmem
        exact (List.find?_eq_none.mp hf m hm) (by simp [hmc])
      refine ⟨fun _ => hrco, ?_, ?_, ?_⟩
      · constructor
        · intro ⟨off, hoff⟩
          rw [hrco] at hoff
          exact absurd hoff (by simp)
        · intro hmem
          exact absurd hmem hnotmem
      · intro off hoff
        rw [hrco] at hoff
        exact absurd hoff (by simp)
      · intro e he
        rw [hrco] at he
        simp only [Except.error.injEq] at he
        exact he.symm
    | some m =>
      rw [hf] at hrco
      have hmc : m.2.2 = child := by
        have := List.find?_some hf
        simpa using this
      have hmem : child ∈ Tmpl.children (.direct vi) := by
        rw [hch]
        exact List.mem_map.mpr ⟨m, List.mem_of_find?_eq_some hf, hmc⟩
      refine ⟨fun hno => absurd hmem hno, ?_, ?_, ?_⟩
      · exact ⟨fun _ => hmem, fun _ => ⟨m.2.1, hrco⟩⟩
      · intro off hoff
        rw [hrco] at hoff
        simp only [Except.ok.injEq] at hoff
        exact ⟨m, List.mem_of_find?_eq_some hf, hmc, hoff⟩
      · intro e he
        rw [hrco] at he
        exact absurd he (by simp)

theorem relative_child_offset_errors_witness :
    Tmpl.relative_child_offset
        (.direct [("size", TVal.natV 4),
                  ("object_class", TVal.classV .primitiveClass)]) 0
      = .error .notSupported ∧
    Tmpl.relative_child_offset
        (.direct [("members", TVal.membersV [("a", 0, 3), ("b", 4, 5)]),
                  ("object_class", TVal.classV .structClass)]) 7
      = .error .childNotFound ∧
    Tmpl.relative_child_offset
        (.direct [("members", TVal.membersV [("a", 0, 3), ("b", 4, 5)]),
                  ("object_class", TVal.classV .structClass)]) 5
      = .ok 4 := by
  refine ⟨(relative_child_offset_errors
      [("size", TVal.natV 4),
       ("object_class", TVal.classV .primitiveClass)] 0).1 (by decide),
    ((relative_child_offset_errors
      [("members", TVal.membersV [("a", 0, 3), ("b", 4, 5)]),
       ("object_class", TVal.classV .structClass)] 7).2 (by decide)).1
        (by decide),
    rfl⟩

/-! Lemmas about member substitution. -/

theorem lookup_replaceMembersVI (vi : VolInfo) (o n : TmplId) (k : String) :
    (replaceMembersVI vi o n).lookup k =
      match vi.lookup k with
      | some (TVal.membersV ms) =>
          some (TVal.membersV (ms.map (fun m =>
            if m.2.2 == o then (m.1, m.2.1, n) else m)))
      | r => r := by
  induction vi with
  | nil => rfl
  | cons p rest ih =>
    obtain ⟨k₁, v₁⟩ := p
    cases v₁ <;>
      (simp only [replaceMembersVI, List.map_cons, List.lookup] at ih ⊢;
       cases hkk : (k == k₁);
       · exact ih
       · rfl)

theorem getObjectClass_replaceMembersVI (vi : VolInfo) (o n : TmplId) :
    getObjectClass (replaceMembersVI vi o n) = getObjectClass vi := by
  unfold getObjectClass
  rw [lookup_replaceMembersVI]
  cases h : vi.lookup "object_class" with
  | none => rfl
  | some v => cases v <;> rfl

theorem getMembers_replaceMembersVI (vi : VolInfo) (o n : TmplId) :
    getMembers (replaceMembersVI vi o n) =
      (getMembers vi).map (fun m =>
        if m.2.2 == o then (m.1, m.2.1, n) else m) := by
  unfold getMembers
  rw [lookup_replaceMembersVI]
  cases h : vi.lookup "members" with
  | none => rfl
  | some v => cases v <;> rfl

theorem map_proj_map_subst (ms : List (String × Nat × TmplId)) (o n : TmplId) :
    (ms.map (fun m => if m.2.2 == o then (m.1, m.2.1, n) else m)).map
        (fun m => m.2.2) =
      (ms.map (fun m => m.2.2)).map (fun x => if x = o then n else x) := by
  induction ms with
  | nil => rfl
  | cons m rest ih =>
    simp only [List.map_cons, List.cons.injEq]
    refine ⟨?_, ih⟩
    by_cases h : m.2.2 = o
    · simp [h]
    · have hb : (m.2.2 == o) = false := beq_eq_false_iff_ne.mpr h
      simp [hb, h]

theorem count_map_subst_zero (cs : List TmplId) (o n : TmplId)
    (ho : o ∉ cs) (hn : n ∉ cs) :
    (cs.map (fun x => if x = o then n else x)).count n = 0 := by
  rw [List.count_eq_zero]
  intro hmem
  obtain ⟨x, hx, hxe⟩ := List.mem_map.mp hmem
  by_cases h : x = o
  · exact ho (h ▸ hx)
  · rw [if_neg h] at hxe
    exact hn (hxe ▸ hx)

theorem count_map_subst_one (cs : List TmplId) (o n : TmplId)
    (h1 : cs.count o = 1) (hn : n ∉ cs) :
    (cs.map (fun x => if x = o then n else x)).count n = 1 := by
  induction cs with
  | nil => simp at h1
  | cons x rest ih =>
    rw [List.count_cons] at h1
    simp only [List.map_cons, List.count_cons]
    by_cases hx : x = o
    · have hxo : (x == o) = true := beq_iff_eq.mpr hx
      simp only [hxo, if_true] at h1
      have ho : o ∉ rest := List.count_eq_zero.mp (by omega)
      have hnr : n ∉ rest := fun hm => hn (List.mem_cons_of_mem _ hm)
      have hz := count_map_subst_zero rest o n ho hnr
      have hsub : (if x = o then n else x) = n := if_pos hx
      rw [hsub, hz]
      simp
    · have hxo : (x == o) = false := beq_eq_false_iff_ne.mpr hx
      simp only [hxo, if_false, Nat.add_zero] at h1
      have hnr : n ∉ rest := fun hm => hn (List.mem_cons_of_mem _ hm)
      have hnx : n ≠ x := fun hh => hn (hh ▸ List.mem_cons_self _ _)
      have hsub : (if x = o then n else x) = x := if_neg hx
      rw [hsub, ih h1 hnr]
      have hxn : (x == n) = false := beq_eq_false_iff_ne.mpr (fun hh => hnx hh.symm)
      rw [hxn]
      simp

/-- C5: `replace_child` rewrites the shared template's member slots in
place: afterwards the children list shows the new identity at exactly the
old one's former positions — exactly once when the old child occurred
exactly once and the new one not at all — with everything else unchanged,
and a subsequent construction through a Deferred-Reference Template that
resolves to this template picks up the replaced shape from the shared
slot, without rebuilding anything. -/
theorem replace_child_updates_shared_template
    (ss : SymbolSpace) (tid o n : TmplId) (vi : VolInfo) (name : String)
    (oi : ObjectInfo) (fuel : Nat)
    (harena : ss.arena[tid]? = some (.direct vi))
    (hcls : getObjectClass vi = some .structClass)
    (hres : ss.tables.lookup name = some tid)
    (hone : (Tmpl.children (.direct vi)).count o = 1)
    (hnew : n ∉ Tmpl.children (.direct vi)) :
    childrenAt (ss.replace_child tid o n) tid =
        (Tmpl.children (.direct vi)).map (fun x => if x = o then n else x) ∧
    (childrenAt (ss.replace_child tid o n) tid).count n = 1 ∧
    (childrenAt (ss.replace_child tid o n) tid).length =
        (Tmpl.children (.direct vi)).length ∧
    (ss.replace_child tid o n).get_structure name =
        .ok (.direct (replaceMembersVI vi o n)) ∧
    constructT ⟨ss.replace_child tid o n⟩ (fuel + 1) (.reference name) oi =
        ObjectTemplate.call (replaceMembersVI vi o n)
          ⟨ss.replace_child tid o n⟩ oi := by
  have hrep : Tmpl.replace_child (.direct vi) o n =
      .ok (.direct (replaceMembersVI vi o n)) := by
    simp only [Tmpl.replace_child, hcls, templateReplaceChild, Except.map]
  have hss : ss.replace_child tid o n =
      ⟨ss.arena.set tid (.direct (replaceMembersVI vi o n)), ss.tables⟩ := by
    unfold SymbolSpace.replace_child
    rw [harena]
    simp only [hrep]
  have htidlt : tid < ss.arena.length := (List.getElem?_eq_some.mp harena).1
  have harena2 : (ss.arena.set tid (.direct (replaceMembersVI vi o n)))[tid]? =
      some (.direct (replaceMembersVI vi o n)) := by
    rw [List.getElem?_set_self']
    simp [List.getElem?_eq_getElem htidlt]
  have hchildren : Tmpl.children (.direct (replaceMembersVI vi o n)) =
      (Tmpl.children (.direct vi)).map (fun x => if x = o then n else x) := by
    simp only [Tmpl.children, getObjectClass_replaceMembersVI, hcls,
      templateChildren]
    rw [getMembers_replaceMembersVI]
    exact map_proj_map_subst (getMembers vi) o n
  have hcat : childrenAt (ss.replace_child tid o n) tid =
      (Tmpl.children (.direct vi)).map (fun x => if x = o then n else x) := by
    rw [hss]
    unfold childrenAt
    simp only [harena2]
    exact hchildren
  have hget : (ss.replace_child tid o n).get_structure name =
      .ok (.direct (replaceMembersVI vi o n)) := by
    rw [hss]
    unfold SymbolSpace.get_structure
    simp only [hres, harena2]
  refine ⟨hcat, ?_, ?_, hget, ?_⟩
  · rw [hcat]
    exact count_map_subst_one _ o n hone hnew
  · rw [hcat, List.length_map]
  · simp only [constructT, hget]

theorem replace_child_updates_shared_template_witness :
    childrenAt
        (SymbolSpace.replace_child
          ⟨[.direct [("object_class", TVal.classV .primitiveClass),
                     ("size", TVal.natV 4)],
            .direct [("object_class", TVal.classV .primitiveClass),
                     ("size", TVal.natV 8)],
            .direct [("members", TVal.membersV [("a", 0, 0)]),
                     ("object_class", TVal.classV .structClass)]],
           [("S", 2)]⟩ 2 0 1) 2 =
      (Tmpl.children (.direct [("members", TVal.membersV [("a", 0, 0)]),
          ("object_class", TVal.classV .structClass)])).map
        (fun x => if x = 0 then 1 else x) ∧
    (childrenAt
        (SymbolSpace.replace_child
          ⟨[.direct [("object_class", TVal.classV .primitiveClass),
                     ("size", TVal.natV 4)],
            .direct [("object_class", TVal.classV .primitiveClass),
                     ("size", TVal.natV 8)],
            .direct [("members", TVal.membersV [("a", 0, 0)]),
                     ("object_class", TVal.classV .structClass)]],
           [("S", 2)]⟩ 2 0 1) 2).count 1 = 1 := by
  have h := replace_child_updates_shared_template
      ⟨[.direct [("object_class", TVal.classV .primitiveClass),
                 ("size", TVal.natV 4)],
        .direct [("object_class", TVal.classV .primitiveClass),
                 ("size", TVal.natV 8)],
        .direct [("members", TVal.membersV [("a", 0, 0)]),
                 ("object_class", TVal.classV .structClass)]],
       [("S", 2)]⟩ 2 0 1
      [("members", TVal.membersV [("a", 0, 0)]),
       ("object_class", TVal.classV .structClass)]
      "S" ⟨"layer", 0, none⟩ 0 rfl rfl rfl (by decide) (by decide)
  exact ⟨h.1, h.2.1⟩

end Templates
